import Mathlib

/-!
# Verification of the AI-Powered Bug Detection Tool core

A shallow embedding of the detection engine of
`backend/ml_engine/model.py` (rule table, line matcher, feature
extractor, confidence scorer, severity aggregator) and of the project
fold of `scripts/scan_project.py`, together with proofs of the spec's
testable properties.

Python strings are modelled as `List Char`; Python floats are modelled
as exact rationals `ℚ` (the arithmetic in the source only combines
small decimal constants); a Python `KeyError` is modelled by `Option`.
Regular-expression search (`re.search` with `re.IGNORECASE`) is
modelled by a Brzozowski-derivative matcher over a small pattern AST,
each of the ten patterns of `_load_bug_patterns` being transcribed into
that AST, with case-insensitivity realised by lower-casing the line.
-/

namespace BugDetection

/-! ## Basic Python string helpers -/

/-- Python's `\s` class restricted to ASCII, as used by `re` and `str.strip`. -/
def isPyWhitespace (c : Char) : Bool :=
  c = ' ' || c = '\t' || c = '\n' || c = '\r' || c = '\x0b' || c = '\x0c'

/-- Python's `\w` class restricted to ASCII: letters, digits, underscore. -/
def isWordChar (c : Char) : Bool :=
  ('a' ≤ c && c ≤ 'z') || ('A' ≤ c && c ≤ 'Z') || ('0' ≤ c && c ≤ '9') || c = '_'

/-- `dropWhile` never lengthens a list (termination helper). -/
theorem dropWhile_length_le (p : Char → Bool) (l : List Char) :
    (l.dropWhile p).length ≤ l.length := by
  induction l with
  | nil => simp [List.dropWhile]
  | cons c cs ih =>
    simp only [List.dropWhile]
    cases p c
    · simp
    · simp; omega

/-- `code.split('\n')`: split on newline; the empty string yields `[[]]`,
and in general the result has one more element than there are newlines. -/
def splitNl : List Char → List (List Char)
  | [] => [[]]
  | c :: cs =>
    if c = '\n' then [] :: splitNl cs
    else
      match splitNl cs with
      | [] => [[c]]
      | l :: ls => (c :: l) :: ls

/-- `line.strip()`: remove leading and trailing whitespace. -/
def pyStrip (l : List Char) : List Char :=
  ((l.dropWhile isPyWhitespace).reverse.dropWhile isPyWhitespace).reverse

/-- Fuel-driven scan for `countSub`: the fuel is an upper bound on the
remaining length, so recursion is structural (and kernel-reducible);
on a match the scan restarts after the matched occurrence. -/
def countSubAux (needle : List Char) : Nat → List Char → Nat
  | 0, _ => 0
  | _ + 1, [] => 0
  | fuel + 1, c :: cs =>
    if needle.isPrefixOf (c :: cs) then
      1 + countSubAux needle fuel (cs.drop (needle.length - 1))
    else
      countSubAux needle fuel cs

/-- `haystack.count(needle)`: number of non-overlapping occurrences,
scanning left to right (Python `str.count` for a non-empty needle). -/
def countSub (needle hay : List Char) : Nat :=
  countSubAux needle hay.length hay

/-! ## Regex patterns as a small AST with a derivative matcher

`re.search(pat, line, re.IGNORECASE)` for the ten anchored-free patterns
of the rule table.  `Pat.search` decides whether some substring of the
line matches; case-insensitivity is obtained by lower-casing the input
and writing the patterns over lower-case letters. -/

inductive Pat where
  | fail : Pat
  | eps : Pat
  | cls : (Char → Bool) → Pat
  | seq : Pat → Pat → Pat
  | alt : Pat → Pat → Pat
  | star : Pat → Pat

namespace Pat

/-- Does the pattern accept the empty string? -/
def nullable : Pat → Bool
  | fail => false
  | eps => true
  | cls _ => false
  | seq p q => nullable p && nullable q
  | alt p q => nullable p || nullable q
  | star _ => true

/-- Brzozowski derivative with respect to one character. -/
def deriv : Pat → Char → Pat
  | fail, _ => fail
  | eps, _ => fail
  | cls f, c => if f c then eps else fail
  | seq p q, c =>
    if nullable p then alt (seq (deriv p c) q) (deriv q c)
    else seq (deriv p c) q
  | alt p q, c => alt (deriv p c) (deriv q c)
  | star p, c => seq (deriv p c) (star p)

/-- Does the pattern match some prefix of the input? -/
def matchHead : Pat → List Char → Bool
  | p, [] => nullable p
  | p, c :: cs => nullable p || matchHead (deriv p c) cs

/-- Does the pattern match some substring of the input
(the semantics of `re.search` for an unanchored pattern)? -/
def searchRaw (p : Pat) : List Char → Bool
  | [] => nullable p
  | c :: cs => matchHead p (c :: cs) || searchRaw p cs

/-- `re.search(p, line, re.IGNORECASE) is not None`, the patterns being
written over lower-case letters. -/
def search (p : Pat) (line : List Char) : Bool :=
  searchRaw p (line.map Char.toLower)

/-- A single literal character. -/
def chr (c : Char) : Pat := cls (fun d => d = c)

/-- A literal string. -/
def lit (s : String) : Pat := s.data.foldr (fun c p => seq (chr c) p) eps

/-- `\s*` building blocks: the whitespace class. -/
def ws : Pat := cls isPyWhitespace

/-- The word-character class `\w`. -/
def wd : Pat := cls isWordChar

/-- `p+` as `p p*`. -/
def plus (p : Pat) : Pat := seq p (star p)

/-- `p?`. -/
def opt (p : Pat) : Pat := alt p eps

end Pat

/-! ## The rule table (`BugDetectionModel._load_bug_patterns`) -/

/-- A detection rule: pattern, severity, message (one entry of the
`bug_patterns` list).  The severity is kept as a string, as in the
source, so that the severity aggregator can be modelled faithfully. -/
structure Rule where
  pattern : Pat
  severity : String
  message : String

open Pat in
/-- The ten rules of `_load_bug_patterns`, in source order.  Each
pattern is the transcription of the source regex (written lower-case,
the matcher lower-casing the line for `re.IGNORECASE`). -/
def bug_patterns : List Rule :=
  [ -- r'==\s*None'
    ⟨seq (lit "==") (seq (star ws) (lit "none")),
      "medium", "Use \"is None\" instead of \"== None\""⟩,
    -- r'except\s*:'
    ⟨seq (lit "except") (seq (star ws) (chr ':')),
      "high", "Bare except clause - specify exception type"⟩,
    -- r'eval\s*\('
    ⟨seq (lit "eval") (seq (star ws) (chr '(')),
      "critical", "Use of eval() is dangerous - security risk"⟩,
    -- r'exec\s*\('
    ⟨seq (lit "exec") (seq (star ws) (chr '(')),
      "critical", "Use of exec() is dangerous - security risk"⟩,
    -- r'var\s+\w+\s*='
    ⟨seq (lit "var") (seq (plus ws) (seq (plus wd) (seq (star ws) (chr '=')))),
      "low", "Use let or const instead of var in JavaScript"⟩,
    -- r'console\.log\('
    ⟨lit "console.log(",
      "low", "Remove console.log before production"⟩,
    -- r'TODO|FIXME|HACK'
    ⟨alt (lit "todo") (alt (lit "fixme") (lit "hack")),
      "medium", "Unresolved TODO/FIXME comment"⟩,
    -- r'password\s*=\s*["\']'
    ⟨seq (lit "password") (seq (star ws) (seq (chr '=') (seq (star ws)
        (cls (fun c => c = '"' || c = '\''))))),
      "critical", "Hardcoded password detected - security risk"⟩,
    -- r'api[_-]?key\s*=\s*["\']'
    ⟨seq (lit "api") (seq (opt (cls (fun c => c = '_' || c = '-')))
        (seq (lit "key") (seq (star ws) (seq (chr '=') (seq (star ws)
        (cls (fun c => c = '"' || c = '\''))))))),
      "critical", "Hardcoded API key detected - security risk"⟩,
    -- r'\.innerHTML\s*='
    ⟨seq (chr '.') (seq (lit "innerhtml") (seq (star ws) (chr '='))),
      "high", "Potential XSS vulnerability with innerHTML"⟩ ]

/-! ## Findings and the line matcher (`detect_pattern_bugs`) -/

/-- One detected issue: the dict appended by `detect_pattern_bugs`
(`line`, `severity`, `message`, `code` = stripped line, `type`). -/
structure Finding where
  line : Nat
  severity : String
  message : String
  code : List Char
  type : String
deriving DecidableEq, Repr

/-- The inner loop of `detect_pattern_bugs`: one line (with its 1-based
number) tested against every rule in table order, each matching rule
contributing one finding. -/
def lineFindings (i : Nat) (line : List Char) : List Finding :=
  bug_patterns.filterMap fun r =>
    if r.pattern.search line then
      some ⟨i, r.severity, r.message, pyStrip line, "pattern"⟩
    else none

/-- `BugDetectionModel.detect_pattern_bugs`: split the blob on newlines,
enumerate lines from 1, and run every rule on every line. -/
def detect_pattern_bugs (code : String) : List Finding :=
  ((splitNl code.data).enumFrom 1).flatMap fun p => lineFindings p.1 p.2

/-! ## Feature extraction (`extract_features`) -/

/-- Fuel-driven scan for `upperConstCount` (structural recursion on
the fuel, an upper bound on the remaining length). -/
def upperConstCountAux : Nat → List Char → Nat
  | 0, _ => 0
  | _ + 1, [] => 0
  | fuel + 1, c :: cs =>
    if isWordChar c then
      (if (c :: cs.takeWhile isWordChar).all
          (fun d => (('A' ≤ d && d ≤ 'Z') || d = '_' : Bool)) then 1 else 0)
        + upperConstCountAux fuel (cs.dropWhile isWordChar)
    else upperConstCountAux fuel cs

/-- `len(re.findall(r'\b[A-Z_]+\b', code))`: the number of maximal
word-character runs consisting entirely of upper-case letters and
underscores (a `\b`-delimited `[A-Z_]+` match is exactly such a maximal
run; this pattern is matched case-sensitively). -/
def upperConstCount (code : List Char) : Nat :=
  upperConstCountAux code.length code

/-- `BugDetectionModel.extract_features`: the ten-entry feature vector
(all entries are non-negative integers, including the two 0/1 flags). -/
def extract_features (code : List Char) : List Nat :=
  [ (splitNl code).length,                                    -- line count
    countSub "if".data code,                                  -- conditionals
    countSub "for".data code + countSub "while".data code,    -- loops
    countSub "try".data code,                                 -- exception handling
    countSub "def".data code + countSub "function".data code, -- functions
    upperConstCount code,                                     -- constants
    countSub "import".data code + countSub "require".data code, -- dependencies
    if 1000 < code.length then 1 else 0,                      -- long file
    if 300 < countSub "\n".data code then 1 else 0,           -- too many lines
    countSub "# TODO".data code + countSub "// TODO".data code ] -- TODOs

/-- Python's binary `min(a, b)`: `a` when `a ≤ b`, else `b` (an
executable form of `min` on `ℚ` that the kernel can evaluate). -/
def pymin (a b : ℚ) : ℚ := if a ≤ b then a else b

/-- `pymin` agrees with the lattice `min` on `ℚ`. -/
theorem pymin_eq_min (a b : ℚ) : pymin a b = min a b := by
  simp [pymin, min_def]

/-! ## Severity aggregation (`_calculate_severity`) -/

/-- The `severity_count` dict: the four fixed keys, always present. -/
structure SeverityCount where
  critical : Nat
  high : Nat
  medium : Nat
  low : Nat
deriving DecidableEq, Repr

/-- `severity_count[s] += 1`; a key outside the four raises `KeyError`,
modelled as `none`. -/
def SeverityCount.incr (s : SeverityCount) (sev : String) : Option SeverityCount :=
  if sev = "critical" then some { s with critical := s.critical + 1 }
  else if sev = "high" then some { s with high := s.high + 1 }
  else if sev = "medium" then some { s with medium := s.medium + 1 }
  else if sev = "low" then some { s with low := s.low + 1 }
  else none

/-- `BugDetectionModel._calculate_severity`: fold the findings into the
zero-initialised four-key dict; the first out-of-enum severity aborts
the whole call with a `KeyError` (`none`). -/
def calculate_severity (bugs : List Finding) : Option SeverityCount :=
  bugs.foldlM (fun acc b => acc.incr b.severity) ⟨0, 0, 0, 0⟩

/-! ## Prediction (`predict`) -/

/-- The result dict returned by `predict`. -/
structure Result where
  has_bugs : Bool
  confidence : ℚ
  bugs_found : List Finding
  total_issues : Nat
  severity_breakdown : SeverityCount
deriving DecidableEq, Repr

/-- `BugDetectionModel.predict`.  `severity_breakdown` is
`_calculate_severity(pattern_bugs)`, which never raises here because
every severity in the rule table is one of the four canonical values
(proved below as `calculate_severity_detect_isSome`); the `getD`
default is therefore never taken. -/
def predict (code : String) : Result :=
  let pattern_bugs := detect_pattern_bugs code
  let features := extract_features code.data
  let complexity_score : ℚ := (features.getD 1 0 : Nat) + (features.getD 2 0 : Nat)
  let line_count : ℚ := (features.getD 0 0 : Nat)
  let bug_probability : ℚ := pymin 0.95 (complexity_score * 0.1 + line_count * 0.001)
  let has_bugs : Bool := decide (0.3 < bug_probability) || decide (0 < pattern_bugs.length)
  { has_bugs := has_bugs,
    confidence := bug_probability,
    bugs_found := pattern_bugs,
    total_issues := pattern_bugs.length,
    severity_breakdown := (calculate_severity pattern_bugs).getD ⟨0, 0, 0, 0⟩ }

/-- The four canonical severities, the exact key set of the
`severity_count` dict (`incr` succeeds precisely on these). -/
def validSeverity (sev : String) : Bool :=
  sev = "critical" || sev = "high" || sev = "medium" || sev = "low"

/-! ## The project fold (`scripts/scan_project.py`, `scan_project`) -/

/-- One entry of `all_results['files']`. -/
structure FileEntry where
  path : String
  has_bugs : Bool
  total_issues : Nat
  confidence : ℚ
deriving DecidableEq, Repr

/-- The `all_results` accumulator / final project summary. -/
structure ProjectSummary where
  total_files : Nat
  files_with_bugs : Nat
  total_issues : Nat
  severity_breakdown : SeverityCount
  files : List FileEntry
  confidence : ℚ
deriving DecidableEq, Repr

/-- Pointwise sum of two severity breakdowns: the
`for severity, count in ...items(): ... += count` loop over the four
fixed keys. -/
def SeverityCount.add (a b : SeverityCount) : SeverityCount :=
  ⟨a.critical + b.critical, a.high + b.high, a.medium + b.medium, a.low + b.low⟩

/-- The initial `all_results` dict of `scan_project`. -/
def scan_init : ProjectSummary :=
  { total_files := 0, files_with_bugs := 0, total_issues := 0,
    severity_breakdown := ⟨0, 0, 0, 0⟩, files := [], confidence := 0 }

/-- The body of the `for file_path in code_files` loop.  A file is a
path together with `some code` when reading succeeds; `none` models an
exception while reading the file, which the `except` clause turns into
a print-and-continue, leaving the accumulator untouched. -/
def scanStep (acc : ProjectSummary) (file : String × Option String) : ProjectSummary :=
  match file.2 with
  | none => acc
  | some code =>
    let results := predict code
    { acc with
      total_files := acc.total_files + 1,
      files_with_bugs := acc.files_with_bugs + (if results.has_bugs then 1 else 0),
      total_issues := acc.total_issues + results.total_issues,
      severity_breakdown := acc.severity_breakdown.add results.severity_breakdown,
      files := acc.files ++
        [⟨file.1, results.has_bugs, results.total_issues, results.confidence⟩] }

/-- `scan_project`, restricted to its core fold: run the loop over the
supplied files, then compute the average confidence, guarded by
`if all_results['total_files'] > 0` (so zero files leaves it `0.0`). -/
def scan_project (files : List (String × Option String)) : ProjectSummary :=
  let r := files.foldl scanStep scan_init
  if 0 < r.total_files then
    { r with confidence := (r.files.map FileEntry.confidence).sum / (r.total_files : ℚ) }
  else r

/-! ## Helper lemmas about `predict` and the feature vector -/

/-- The confidence field of `predict`, unfolded. -/
theorem predict_confidence (code : String) :
    (predict code).confidence =
      pymin 0.95
        ((((extract_features code.data).getD 1 0 : ℚ)
            + ((extract_features code.data).getD 2 0 : ℚ)) * 0.1
          + ((extract_features code.data).getD 0 0 : ℚ) * 0.001) := rfl

/-- The `has_bugs` field of `predict`, unfolded. -/
theorem predict_has_bugs (code : String) :
    (predict code).has_bugs =
      (decide ((0.3 : ℚ) < (predict code).confidence)
        || decide (0 < (detect_pattern_bugs code).length)) := rfl

/-- The `total_issues` field of `predict`, unfolded. -/
theorem predict_total_issues (code : String) :
    (predict code).total_issues = (detect_pattern_bugs code).length := rfl

/-- The `severity_breakdown` field of `predict`, unfolded. -/
theorem predict_severity_breakdown (code : String) :
    (predict code).severity_breakdown =
      (calculate_severity (detect_pattern_bugs code)).getD ⟨0, 0, 0, 0⟩ := rfl

/-- Entry 0 of the feature vector is the line count. -/
theorem extract_features_getD_zero (code : List Char) :
    (extract_features code).getD 0 0 = (splitNl code).length := rfl

/-- `split('\n')` never returns the empty list (even for the empty
string it returns `[""]`), hence the line count is at least one. -/
theorem splitNl_ne_nil : ∀ l : List Char, splitNl l ≠ []
  | [] => by simp [splitNl]
  | c :: cs => by
    simp only [splitNl]
    split
    · simp
    · split <;> simp

/-- The line count — feature 0 — is at least one for every blob. -/
theorem one_le_line_count (code : List Char) :
    1 ≤ (extract_features code).getD 0 0 := by
  rw [extract_features_getD_zero]
  exact List.length_pos.mpr (splitNl_ne_nil code)

/-! ## Helper lemmas about the severity aggregator and the findings -/

/-- `incr` succeeds exactly on the four canonical severities. -/
theorem incr_isSome (s : SeverityCount) (sev : String) :
    (s.incr sev).isSome = validSeverity sev := by
  unfold SeverityCount.incr validSeverity
  split_ifs with h1 h2 h3 h4 <;> simp_all

/-- The severity fold succeeds from any accumulator exactly when every
finding's severity is canonical. -/
theorem foldlM_incr_isSome (bugs : List Finding) :
    ∀ acc : SeverityCount,
      (bugs.foldlM (fun (a : SeverityCount) (b : Finding) => a.incr b.severity) acc).isSome
        = bugs.all (fun b => validSeverity b.severity) := by
  induction bugs with
  | nil => intro acc; simp
  | cons b tl ih =>
    intro acc
    rw [List.foldlM_cons]
    cases h : acc.incr b.severity with
    | none =>
      have hv : validSeverity b.severity = false := by
        rw [← incr_isSome acc, h]; rfl
      simp [hv, h]
    | some a =>
      have hv : validSeverity b.severity = true := by
        rw [← incr_isSome acc, h]; rfl
      simp [hv, h, ih a]

/-- A successful `incr` increases the sum of the four buckets by one. -/
theorem incr_sum {s t : SeverityCount} {sev : String}
    (h : s.incr sev = some t) :
    t.critical + t.high + t.medium + t.low
      = s.critical + s.high + s.medium + s.low + 1 := by
  unfold SeverityCount.incr at h
  split_ifs at h <;> cases h <;> simp <;> omega

/-- A successful severity fold adds exactly one per finding to the sum
of the four buckets. -/
theorem foldlM_incr_sum (bugs : List Finding) :
    ∀ (acc t : SeverityCount),
      bugs.foldlM (fun (a : SeverityCount) (b : Finding) => a.incr b.severity) acc = some t →
      t.critical + t.high + t.medium + t.low
        = acc.critical + acc.high + acc.medium + acc.low + bugs.length := by
  induction bugs with
  | nil =>
    intro acc t h
    simp only [List.foldlM_nil] at h
    cases h
    simp
  | cons b tl ih =>
    intro acc t h
    rw [List.foldlM_cons] at h
    cases hi : acc.incr b.severity with
    | none => rw [hi] at h; cases h
    | some a =>
      rw [hi] at h
      simp only [Option.bind_eq_bind, Option.some_bind] at h
      have := ih a t h
      have := incr_sum hi
      simp only [List.length_cons]
      omega

/-- Every rule in the table carries a canonical severity. -/
theorem bug_patterns_valid :
    ∀ r ∈ bug_patterns, validSeverity r.severity = true := by
  intro r hr
  simp only [bug_patterns, List.mem_cons, List.not_mem_nil, or_false] at hr
  rcases hr with rfl | rfl | rfl | rfl | rfl | rfl | rfl | rfl | rfl | rfl <;> rfl

/-- Membership in the inner loop: a finding on line `i` comes from some
rule of the table, and copies that rule's severity and message, the
line number `i`, and the stripped line text. -/
theorem mem_lineFindings {b : Finding} {i : Nat} {l : List Char}
    (h : b ∈ lineFindings i l) :
    ∃ r ∈ bug_patterns, b = ⟨i, r.severity, r.message, pyStrip l, "pattern"⟩ := by
  unfold lineFindings at h
  rw [List.mem_filterMap] at h
  obtain ⟨r, hr, heq⟩ := h
  split at heq
  · cases heq; exact ⟨r, hr, rfl⟩
  · cases heq

/-- A finding produced by the inner loop for line `i` has line `i`. -/
theorem lineFindings_line {b : Finding} {i : Nat} {l : List Char}
    (h : b ∈ lineFindings i l) : b.line = i := by
  obtain ⟨r, _, rfl⟩ := mem_lineFindings h
  rfl

/-- Every finding of `detect_pattern_bugs` carries a canonical
severity (it copies the severity of some rule in the table). -/
theorem detect_valid (code : String) :
    ∀ b ∈ detect_pattern_bugs code, validSeverity b.severity = true := by
  intro b hb
  unfold detect_pattern_bugs at hb
  rw [List.mem_flatMap] at hb
  obtain ⟨p, _, hbl⟩ := hb
  obtain ⟨r, hr, rfl⟩ := mem_lineFindings hbl
  exact bug_patterns_valid r hr

/-- The severity fold over the findings of any blob succeeds. -/
theorem calculate_severity_detect_isSome (code : String) :
    (calculate_severity (detect_pattern_bugs code)).isSome = true := by
  unfold calculate_severity
  rw [foldlM_incr_isSome]
  rw [List.all_eq_true]
  exact detect_valid code

/-- Every finding produced from the lines enumerated from `n` onwards
lies on a line numbered at least `n`. -/
theorem flatMap_enumFrom_line_ge (ls : List (List Char)) :
    ∀ n : Nat, ∀ b ∈ (ls.enumFrom n).flatMap (fun p => lineFindings p.1 p.2),
      n ≤ b.line := by
  induction ls with
  | nil => intro n b hb; simp [List.enumFrom] at hb
  | cons hd tl ih =>
    intro n b hb
    simp only [List.enumFrom, List.flatMap_cons, List.mem_append] at hb
    rcases hb with hb | hb
    · rw [lineFindings_line hb]
    · exact Nat.le_of_succ_le (ih (n + 1) b hb)

/-- The findings of the enumerated lines are sorted by line number:
every line's block carries one constant line number and blocks appear
in ascending order. -/
theorem flatMap_enumFrom_pairwise (ls : List (List Char)) :
    ∀ n : Nat,
      List.Pairwise (fun a b : Finding => a.line ≤ b.line)
        ((ls.enumFrom n).flatMap (fun p => lineFindings p.1 p.2)) := by
  induction ls with
  | nil => intro n; simp [List.enumFrom]
  | cons hd tl ih =>
    intro n
    simp only [List.enumFrom, List.flatMap_cons]
    rw [List.pairwise_append]
    refine ⟨?_, ih (n + 1), ?_⟩
    · exact List.pairwise_of_forall_mem_list fun a ha b hb => by
        rw [lineFindings_line ha, lineFindings_line hb]
    · intro a ha b hb
      rw [lineFindings_line ha]
      exact Nat.le_of_succ_le (flatMap_enumFrom_line_ge tl (n + 1) b hb)

/-- Filtering the enumerated findings to the line numbered `n + j`
recovers exactly the inner loop's output on line `j` of the blob:
no other line contributes to it and no finding of that line is lost. -/
theorem filter_flatMap_enumFrom (ls : List (List Char)) :
    ∀ (n j : Nat) (l : List Char), ls[j]? = some l →
      ((ls.enumFrom n).flatMap (fun p => lineFindings p.1 p.2)).filter
          (fun b => b.line == n + j)
        = lineFindings (n + j) l := by
  induction ls with
  | nil => intro n j l h; simp at h
  | cons hd tl ih =>
    intro n j l h
    simp only [List.enumFrom, List.flatMap_cons, List.filter_append]
    cases j with
    | zero =>
      rw [List.getElem?_cons_zero] at h
      cases h
      have h1 : (lineFindings n hd).filter (fun b => b.line == n + 0)
          = lineFindings n hd :=
        List.filter_eq_self.mpr fun b hb => by
          rw [lineFindings_line hb]; simp
      have h2 : (((tl.enumFrom (n + 1)).flatMap fun p => lineFindings p.1 p.2).filter
          (fun b => b.line == n + 0)) = [] :=
        List.filter_eq_nil_iff.mpr fun b hb => by
          have := flatMap_enumFrom_line_ge tl (n + 1) b hb
          simp only [beq_iff_eq]
          omega
      rw [h1, h2, List.append_nil, Nat.add_zero]
    | succ j' =>
      rw [List.getElem?_cons_succ] at h
      have h1 : (lineFindings n hd).filter (fun b => b.line == n + (j' + 1)) = [] :=
        List.filter_eq_nil_iff.mpr fun b hb => by
          rw [lineFindings_line hb]
          simp only [beq_iff_eq]
          omega
      have h2 := ih (n + 1) j' l h
      rw [h1, List.nil_append]
      rw [show n + (j' + 1) = n + 1 + j' by omega]
      exact h2

/-! ## Claim theorems -/

/-- **C1** (counterexample): the claim "for the empty blob, `predict`
returns `total_issues == 0`, `confidence == 0.0` and
`has_bugs == false`" is false as stated: the empty string still counts
as one line (`''.split('\n') == ['']`), so the confidence is
`1 * 0.001 = 0.001`, not `0.0`. -/
theorem empty_blob_confidence_not_zero :
    ¬ ((predict "").total_issues = 0 ∧ (predict "").confidence = 0
        ∧ (predict "").has_bugs = false) := by
  intro h
  have hc : (predict "").confidence = 0.001 := by
    rw [predict_confidence]
    have hf : extract_features "".data = [1, 0, 0, 0, 0, 0, 0, 0, 0, 0] := by decide
    rw [hf]
    norm_num [pymin]
  rw [h.2.1] at hc
  norm_num at hc

/-- **C1** (amended): for the empty blob, `predict` raises no error and
returns `total_issues == 0`, `has_bugs == false`, and
`confidence == 0.001` (the empty blob counts as one line). -/
theorem empty_blob_result :
    (predict "").total_issues = 0 ∧ (predict "").confidence = 0.001
      ∧ (predict "").has_bugs = false := by
  have hf : extract_features "".data = [1, 0, 0, 0, 0, 0, 0, 0, 0, 0] := by decide
  have hd : detect_pattern_bugs "" = [] := by decide
  have hc : (predict "").confidence = 0.001 := by
    rw [predict_confidence, hf]; norm_num [pymin]
  refine ⟨by rw [predict_total_issues, hd]; rfl, hc, ?_⟩
  rw [predict_has_bugs, hc, hd]
  norm_num

/-- **C2**: for every blob, the result of `predict` satisfies
`has_bugs == (confidence > 0.3 or total_issues > 0)`. -/
theorem has_bugs_iff (code : String) :
    (predict code).has_bugs = true ↔
      ((0.3 : ℚ) < (predict code).confidence ∨ 0 < (predict code).total_issues) := by
  rw [predict_has_bugs, predict_total_issues]
  simp [Bool.or_eq_true, decide_eq_true_iff]

/-- **C3**: for every blob, `total_issues` equals the sum of the four
counts of `severity_breakdown`; the breakdown always carries exactly
the four keys critical/high/medium/low (it is a `SeverityCount`
by construction, and `calculate_severity` starts from the zero-filled
dict, as witnessed by the second conjunct). -/
theorem total_issues_eq_breakdown_sum (code : String) :
    (predict code).total_issues
      = (predict code).severity_breakdown.critical
        + (predict code).severity_breakdown.high
        + (predict code).severity_breakdown.medium
        + (predict code).severity_breakdown.low
    ∧ calculate_severity [] = some ⟨0, 0, 0, 0⟩ := by
  refine ⟨?_, rfl⟩
  rw [predict_total_issues, predict_severity_breakdown]
  obtain ⟨t, ht⟩ := Option.isSome_iff_exists.mp (calculate_severity_detect_isSome code)
  rw [ht]
  have h := foldlM_incr_sum (detect_pattern_bugs code) ⟨0, 0, 0, 0⟩ t ht
  simp only [Option.getD_some]
  simp only [] at h
  omega

/-- **C8**: the severity aggregation over a findings sequence succeeds
exactly when every finding's severity lies in the canonical four-value
set (`validSeverity`); any out-of-enum severity makes the whole call
fail with a `KeyError` (`none`), never a silent coercion. -/
theorem calculate_severity_isSome_iff_valid (bugs : List Finding) :
    (calculate_severity bugs).isSome
      = bugs.all (fun b => validSeverity b.severity) :=
  foldlM_incr_isSome bugs ⟨0, 0, 0, 0⟩

/-- **C8** (witness): a finding with severity `"warning"` makes the
aggregation fail, while the same finding with severity `"high"`
succeeds. -/
theorem calculate_severity_isSome_iff_valid_witness :
    (calculate_severity [⟨1, "warning", "m", [], "pattern"⟩]).isSome = false
    ∧ (calculate_severity [⟨1, "high", "m", [], "pattern"⟩]).isSome = true :=
  ⟨(calculate_severity_isSome_iff_valid [⟨1, "warning", "m", [], "pattern"⟩]).trans (by decide),
   (calculate_severity_isSome_iff_valid [⟨1, "high", "m", [], "pattern"⟩]).trans (by decide)⟩

/-- **C4**: for every blob, the findings are ordered outer by ascending
1-based line number; filtering to the line numbered `j + 1` returns
exactly the inner loop's table-order pass over line `j` — one finding
per matching rule, with no rule suppressed by another; and concretely a
single line matching both the hardcoded-password rule and the
hardcoded-API-key rule yields at least two findings on that line. -/
theorem findings_ordering (code : String) (j : Nat) (l : List Char)
    (h : (splitNl code.data)[j]? = some l) :
    List.Pairwise (fun a b : Finding => a.line ≤ b.line) (detect_pattern_bugs code)
    ∧ (detect_pattern_bugs code).filter (fun b => b.line == j + 1)
        = lineFindings (j + 1) l
    ∧ 2 ≤ ((detect_pattern_bugs "password = \"t\"; api_key = \"sk-x\"").filter
          (fun b => b.line == 1)).length := by
  refine ⟨flatMap_enumFrom_pairwise (splitNl code.data) 1, ?_, by decide⟩
  have := filter_flatMap_enumFrom (splitNl code.data) 1 j l h
  rw [show 1 + j = j + 1 by omega] at this
  exact this

/-- **C4** (witness): instantiated on the one-line blob carrying both a
password literal and an API-key literal. -/
theorem findings_ordering_witness :
    (splitNl ("password = \"t\"; api_key = \"sk-x\"" : String).data)[0]?
        = some ("password = \"t\"; api_key = \"sk-x\"" : String).data
    ∧ 2 ≤ ((detect_pattern_bugs "password = \"t\"; api_key = \"sk-x\"").filter
          (fun b => b.line == 1)).length :=
  ⟨by decide,
    (findings_ordering "password = \"t\"; api_key = \"sk-x\"" 0
      ("password = \"t\"; api_key = \"sk-x\"" : String).data (by decide)).2.2⟩

/-- **C5**: for every blob, the confidence equals
`min(0.95, complexity_score * 0.1 + line_count * 0.001)` where
`complexity_score` is the sum of entries 1 (conditionals) and 2 (loops)
of the feature vector and `line_count` is entry 0; it never exceeds
`0.95`; and it is a function of the feature vector alone: any second
blob with the same feature vector gets the same confidence (the
findings are never consulted). -/
theorem confidence_formula (code code₂ : String)
    (h : extract_features code₂.data = extract_features code.data) :
    (predict code).confidence =
      min 0.95
        ((((extract_features code.data).getD 1 0 : ℚ)
            + ((extract_features code.data).getD 2 0 : ℚ)) * 0.1
          + ((extract_features code.data).getD 0 0 : ℚ) * 0.001)
    ∧ (predict code).confidence ≤ 0.95
    ∧ (predict code₂).confidence = (predict code).confidence := by
  have h1 : (predict code).confidence =
      min 0.95
        ((((extract_features code.data).getD 1 0 : ℚ)
            + ((extract_features code.data).getD 2 0 : ℚ)) * 0.1
          + ((extract_features code.data).getD 0 0 : ℚ) * 0.001) := by
    rw [predict_confidence, pymin_eq_min]
  refine ⟨h1, ?_, ?_⟩
  · rw [h1]; exact min_le_left _ _
  · rw [predict_confidence, predict_confidence, h]

/-- **C5** (witness): the blobs `"cd"` and `"ab"` have equal feature
vectors and hence equal confidence. -/
theorem confidence_formula_witness :
    extract_features "cd".data = extract_features "ab".data
      ∧ (predict "cd").confidence = (predict "ab").confidence :=
  ⟨by decide, (confidence_formula "ab" "cd" (by decide)).2.2⟩

/-- **C9**: the blob `"if x == None: pass"` yields exactly one finding,
of medium severity, from the null-comparison rule, while
`"if x is None: pass"` yields no finding at all (in particular none
from that rule). -/
theorem null_comparison_rule :
    detect_pattern_bugs "if x == None: pass"
      = [⟨1, "medium", "Use \"is None\" instead of \"== None\"",
          "if x == None: pass".data, "pattern"⟩]
    ∧ detect_pattern_bugs "if x is None: pass" = [] := by
  refine ⟨by decide, by decide⟩

/-- The scan loop over files that all read successfully, from an
arbitrary accumulator: every field is the accumulator's value plus the
exact per-file contribution, and the loop never touches `confidence`. -/
theorem scan_foldl_eq (files : List (String × String)) :
    ∀ acc : ProjectSummary,
      (files.map (fun p => (p.1, some p.2))).foldl scanStep acc =
        { total_files := acc.total_files + files.length,
          files_with_bugs := acc.files_with_bugs
            + (files.filter (fun p => (predict p.2).has_bugs)).length,
          total_issues := acc.total_issues
            + (files.map (fun p => (predict p.2).total_issues)).sum,
          severity_breakdown := acc.severity_breakdown.add
            ⟨(files.map (fun p => (predict p.2).severity_breakdown.critical)).sum,
             (files.map (fun p => (predict p.2).severity_breakdown.high)).sum,
             (files.map (fun p => (predict p.2).severity_breakdown.medium)).sum,
             (files.map (fun p => (predict p.2).severity_breakdown.low)).sum⟩,
          files := acc.files ++ files.map (fun p =>
            ⟨p.1, (predict p.2).has_bugs, (predict p.2).total_issues,
              (predict p.2).confidence⟩),
          confidence := acc.confidence } := by
  induction files with
  | nil =>
    intro acc
    cases acc with
    | mk tf fwb ti sb fs conf =>
      cases sb
      simp [SeverityCount.add]
  | cons q tl ih =>
    intro acc
    rw [List.map_cons, List.foldl_cons]
    rw [ih]
    simp only [scanStep, SeverityCount.add, ProjectSummary.mk.injEq, List.map_cons,
      List.sum_cons, List.filter_cons, SeverityCount.mk.injEq, List.length_cons]
    refine ⟨by omega, ?_, by omega, ⟨by omega, by omega, by omega, by omega⟩, ?_, trivial⟩
    · split
      · simp only [List.length_cons]; omega
      · omega
    · rw [List.append_assoc]
      rfl

/-- **C6**: folding `N` successfully-read files, the summary's
`total_files` is `N`, `files_with_bugs` counts the files whose result
has `has_bugs`, `total_issues` and every severity bucket are the exact
arithmetic sums of the per-file values, and `confidence` is the exact
arithmetic mean of the per-file confidences — `0` with no division when
`N = 0`. -/
theorem project_summary_sums (files : List (String × String)) :
    (scan_project (files.map fun p => (p.1, some p.2))).total_files = files.length
    ∧ (scan_project (files.map fun p => (p.1, some p.2))).files_with_bugs
        = (files.filter (fun p => (predict p.2).has_bugs)).length
    ∧ (scan_project (files.map fun p => (p.1, some p.2))).total_issues
        = (files.map (fun p => (predict p.2).total_issues)).sum
    ∧ (scan_project (files.map fun p => (p.1, some p.2))).severity_breakdown
        = ⟨(files.map (fun p => (predict p.2).severity_breakdown.critical)).sum,
           (files.map (fun p => (predict p.2).severity_breakdown.high)).sum,
           (files.map (fun p => (predict p.2).severity_breakdown.medium)).sum,
           (files.map (fun p => (predict p.2).severity_breakdown.low)).sum⟩
    ∧ (scan_project (files.map fun p => (p.1, some p.2))).confidence
        = if files.length = 0 then 0
          else (files.map (fun p => (predict p.2).confidence)).sum / (files.length : ℚ) := by
  unfold scan_project
  rw [scan_foldl_eq files scan_init]
  by_cases hf : files.length = 0
  · rw [List.length_eq_zero] at hf
    subst hf
    simp [scan_init, SeverityCount.add]
  · have hpos : 0 < files.length := Nat.pos_of_ne_zero hf
    simp only [scan_init, Nat.zero_add, List.nil_append, hpos, if_pos, if_neg hf,
      Nat.add_zero]
    refine ⟨trivial, trivial, trivial, by simp [SeverityCount.add], ?_⟩
    rw [List.map_map]
    rfl

/-- **C7**: an error reading or analyzing one file does not abort the
project scan and leaves the entire summary — totals, buckets,
`files_with_bugs`, the per-file sequence and the mean confidence —
exactly as if the failing file had not been supplied at all. -/
theorem failed_file_skipped (pre post : List (String × Option String)) (p : String) :
    scan_project (pre ++ (p, none) :: post) = scan_project (pre ++ post) := by
  have h : List.foldl scanStep scan_init (pre ++ (p, none) :: post)
      = List.foldl scanStep scan_init (pre ++ post) := by
    rw [List.foldl_append, List.foldl_append, List.foldl_cons]
    rfl
  unfold scan_project
  rw [h]

/-- **C10**: for every blob — the empty one included — the confidence
is at least `0.001` (every blob has at least one line), at most `0.95`,
and in particular never `0` and never `1`. -/
theorem confidence_strict_bounds (code : String) :
    (0.001 : ℚ) ≤ (predict code).confidence
    ∧ (predict code).confidence ≤ 0.95
    ∧ (predict code).confidence ≠ 0
    ∧ (predict code).confidence ≠ 1 := by
  rw [predict_confidence]
  set a : ℚ := ((extract_features code.data).getD 1 0 : ℚ) with ha
  set b : ℚ := ((extract_features code.data).getD 2 0 : ℚ) with hb
  set n : ℚ := ((extract_features code.data).getD 0 0 : ℚ) with hn
  have han : (0 : ℚ) ≤ a := by rw [ha]; exact_mod_cast Nat.zero_le _
  have hbn : (0 : ℚ) ≤ b := by rw [hb]; exact_mod_cast Nat.zero_le _
  have hn1 : (1 : ℚ) ≤ n := by rw [hn]; exact_mod_cast one_le_line_count code.data
  have hx : (0.001 : ℚ) ≤ (a + b) * 0.1 + n * 0.001 := by nlinarith
  unfold pymin
  split
  · refine ⟨by norm_num, le_refl _, by norm_num, by norm_num⟩
  · rename_i hlt
    push_neg at hlt
    refine ⟨hx, le_of_lt hlt, ?_, ?_⟩
    · intro h0; rw [h0] at hx; norm_num at hx
    · intro h1
      rw [h1] at hlt
      norm_num at hlt

end BugDetection
